import Mathlib

/-
  Verification of the libbitcoin-node header synchronization session
  (src/sessions/session_header_sync.cpp) and the executor stop signal
  (console/executor.cpp), via a shallow embedding in Lean 4.

  Heights are C++ size_t values; arithmetic on them is modelled over Nat
  with an explicit modulus W = 2^64 exactly where the source can wrap
  (the gap-bound computations `last_gap + 1` and `first_gap - 1`).
-/

namespace LibbitcoinNode

/-- The size_t modulus: heights are 64-bit unsigned integers. -/
def W : Nat := 2 ^ 64

/-- Result codes used by the embedded functions. `success` is code 0; the
C++ test `if (ec)` is true exactly for the non-success codes. `err n`
stands for any other concrete error code (network failures etc.). -/
inductive Code where
  | success
  | operation_failed
  | not_found
  | err (n : Nat)
deriving DecidableEq, Repr

/-- The C++ truthiness test `if (ec)`: true iff the code is not success. -/
def isError : Code → Bool
  | .success => false
  | _ => true

/-- A block header; only its hash is consulted by the session
(`first_header.hash()`, `last_header.hash()`), modelled as a Nat
standing for the 256-bit digest. -/
structure Header where
  hash : Nat
deriving DecidableEq, Repr

/-- `bc::config::checkpoint`: a (hash, height) pair. -/
structure Checkpoint where
  hash : Nat
  height : Nat
deriving DecidableEq, Repr

/-- A default-constructed checkpoint (null hash, height zero), the state of
`checkpoint seed;` and the member `last_` before `get_range` assigns them. -/
def defaultCheckpoint : Checkpoint := ⟨0, 0⟩

/-- The `fast_chain` reader interface consumed by the session:
`get_last_height` (none = failure), `get_gap_range` (none = no gap,
some (first_gap, last_gap) = gap reported), and `get_header` by height
(none = not found). -/
structure FastChain where
  lastHeight : Option Nat
  gapRange : Option (Nat × Nat)
  header : Nat → Option Header

namespace session_header_sync

/-- The condition `!checkpoints_.empty() && checkpoints_.back().height() > last_height`.
The member list `checkpoints_` is sorted ascending by height at construction
(`checkpoint::sort`), so `.back()` (here `List.getLast?`) is the highest checkpoint. -/
def backExceeds (cps : List Checkpoint) (lastHeight : Nat) : Bool :=
  match cps.getLast? with
  | some back => decide (lastHeight < back.height)
  | none => false

/-- The working bounds (first_height, last_height) computed by `get_range`:
`auto first_height = last_height;` then, if a gap is reported,
`last_height = last_gap + 1; first_height = first_gap - 1;` in size_t
arithmetic (hence the explicit mod `W`: `first_gap - 1` wraps when
`first_gap = 0`). -/
def syncBounds (tip : Nat) (gap : Option (Nat × Nat)) : Nat × Nat :=
  match gap with
  | some (firstGap, lastGap) => ((firstGap + (W - 1)) % W, (lastGap + 1) % W)
  | none => (tip, tip)

/-- The stop-selection chain of `get_range`: prefer the highest checkpoint when
its height exceeds the (gap-adjusted) last height; else the collapsed
single-point range when first_height equals last_height; else the header at
last_height (none = that header is absent, yielding `error::not_found`).
When `backExceeds` holds, `cps.getLast?` is some, so `none` arises only from
the absent last header, exactly as in the source. -/
def resolveStop (chain : FastChain) (cps : List Checkpoint) (firstHeader : Header)
    (firstHeight lastHeight : Nat) : Option Checkpoint :=
  if backExceeds cps lastHeight then cps.getLast?
  else if firstHeight = lastHeight then some ⟨firstHeader.hash, firstHeight⟩
  else (chain.header lastHeight).map fun lastHeader => ⟨lastHeader.hash, lastHeight⟩

/-- `session_header_sync::get_range(out_seed, out_stop)`.  The C++ signature
mutates two reference parameters and returns a code; this embedding takes the
incoming values of the two out-parameters and returns (code, out_seed, out_stop),
so leaving a parameter unassigned is modelled by returning it unchanged.
On every error return in the source the function exits before assigning either
out-parameter; both are assigned just before the single `error::success` return. -/
def get_range (chain : FastChain) (cps : List Checkpoint)
    (out_seed out_stop : Checkpoint) : Code × Checkpoint × Checkpoint :=
  match chain.lastHeight with
  | none => (Code.operation_failed, out_seed, out_stop)
  | some tip =>
    match chain.header (syncBounds tip chain.gapRange).1 with
    | none => (Code.not_found, out_seed, out_stop)
    | some firstHeader =>
      match resolveStop chain cps firstHeader (syncBounds tip chain.gapRange).1
          (syncBounds tip chain.gapRange).2 with
      | none => (Code.not_found, out_seed, out_stop)
      | some stp =>
        (Code.success, ⟨firstHeader.hash, (syncBounds tip chain.gapRange).1⟩, stp)

/-- `headers_per_second = 10000`: the starting minimum header download rate. -/
def headers_per_second : Nat := 10000

/-- The rational value of the float constant `back_off_factor = 0.75f`
(exactly representable in IEEE single precision). -/
def back_off_factor : ℚ := 3 / 4

/-- One rate decay step: `minimum_rate_ = static_cast<uint32_t>(minimum_rate_ * back_off_factor)`.
`minimum_rate_` starts at 10000 and only ever shrinks, so it stays below 2^24 and its
conversion to float is exact; `r * 0.75f` has numerator `3 * r < 2^26` over denominator 4,
exactly representable in the 24-bit float mantissa; the uint32 cast truncates toward zero.
Hence the step is exactly floor (3 * r / 4) on every value the session can reach. -/
def decayRate (r : Nat) : Nat := 3 * r / 4

/-- Observable session actions: a connection attempt (`this->connect` through the
connector identified by `conn`), an invocation of the caller's completion handler,
and the header-queue initialization `hashes_.initialize(seed)`. -/
inductive Event where
  | connectAttempt (conn : Nat)
  | handlerCall (c : Code)
  | queueInit (seed : Checkpoint)
deriving DecidableEq, Repr

/-- The environment's answers for one connection attempt: whether `stopped()` holds
when `new_connection` runs, the code passed to `handle_connect`, the code passed to
`handle_channel_start` (consulted only after a successful connect), and the code the
header-download protocol passes to `handle_complete` (consulted only after a
successful channel start). -/
structure AttemptEnv where
  stoppedNow : Bool
  connectCode : Code
  startCode : Code
  syncCode : Code

/-- The retry loop `new_connection` / `handle_connect` / `handle_channel_start` /
`handle_complete`, driven by the per-attempt environment and bounded by fuel
(the source loops indefinitely; running out of fuel returns with no handler call).
Mirrors the source exactly: a pending stop exits silently; a connect failure
reconnects with the same connector at the same rate; a channel-start failure is fed
to `handle_complete` and, like a download failure, decays the rate and reconnects
with the same connector; a successful completion invokes the handler with its code
and ends the loop. Returns the event trace and the final `minimum_rate_`. -/
def runLoop (env : Nat → AttemptEnv) (conn : Nat) : Nat → Nat → Nat → List Event × Nat
  | 0, _, rate => ([], rate)
  | fuel + 1, i, rate =>
    if (env i).stoppedNow then ([], rate)
    else if isError (env i).connectCode then
      (Event.connectAttempt conn :: (runLoop env conn fuel (i + 1) rate).1,
        (runLoop env conn fuel (i + 1) rate).2)
    else if isError (env i).startCode then
      (Event.connectAttempt conn :: (runLoop env conn fuel (i + 1) (decayRate rate)).1,
        (runLoop env conn fuel (i + 1) (decayRate rate)).2)
    else if isError (env i).syncCode then
      (Event.connectAttempt conn :: (runLoop env conn fuel (i + 1) (decayRate rate)).1,
        (runLoop env conn fuel (i + 1) (decayRate rate)).2)
    else
      ([Event.connectAttempt conn, Event.handlerCall (env i).syncCode], rate)

/-- The start sequence `handle_started` followed by `initialize`: a failed
`session::start` reports its code; a non-empty header queue reports
`operation_failed` with no connection attempt; a `get_range` error is reported;
`seed == last_` reports success with no queue initialization and no connection;
otherwise the queue is initialized with the seed and the connect/retry loop runs
with the connector created by `create_connector()`. `hashesEmpty` is the value of
`hashes_.empty()` at initialization time; the rate starts at `headers_per_second`. -/
def runSession (startCode : Code) (hashesEmpty : Bool) (chain : FastChain)
    (cps : List Checkpoint) (env : Nat → AttemptEnv) (conn fuel : Nat) :
    List Event × Nat :=
  if isError startCode then ([Event.handlerCall startCode], headers_per_second)
  else if hashesEmpty = false then
    ([Event.handlerCall Code.operation_failed], headers_per_second)
  else
    match get_range chain cps defaultCheckpoint defaultCheckpoint with
    | (ec, seed, last) =>
      if isError ec then ([Event.handlerCall ec], headers_per_second)
      else if seed = last then ([Event.handlerCall Code.success], headers_per_second)
      else
        (Event.queueInit seed :: (runLoop env conn fuel 0 headers_per_second).1,
          (runLoop env conn fuel 0 headers_per_second).2)

end session_header_sync

namespace executor

/-- `executor::stop(ec)`: `std::call_once(stop_mutex, [&](){ stopping_.set_value(ec); })`.
The promise `stopping_` together with its set-once guard is modelled as an
`Option Code` (none = not yet signaled); calls are serialized by `call_once`. -/
def stop (ec : Code) (st : Option Code) : Option Code :=
  match st with
  | none => some ec
  | some v => some v

/-- A sequence of `stop` calls applied in order to the shared promise state. -/
def signalAll (cs : List Code) (st : Option Code) : Option Code :=
  cs.foldl (fun acc c => stop c acc) st

end executor

/-
  Concrete fixtures used by witnesses and counterexamples.
-/

/-- A chain whose headers at heights 0..100 have hash (height + 1000),
tip at 100, no gap. -/
def chainTip100 : FastChain :=
  { lastHeight := some 100
    gapRange := none
    header := fun h => if h ≤ 100 then some ⟨h + 1000⟩ else none }

/-- A chain with tip 30, a reported gap [10, 20], headers at 0..30. -/
def chainGap : FastChain :=
  { lastHeight := some 30
    gapRange := some (10, 20)
    header := fun h => if h ≤ 30 then some ⟨h + 1000⟩ else none }

/-- A chain holding only the genesis header, tip 0, no gap. -/
def chainGenesis : FastChain :=
  { lastHeight := some 0
    gapRange := none
    header := fun h => if h = 0 then some ⟨1000⟩ else none }

/-- A chain whose last-height lookup fails. -/
def chainUnreadable : FastChain :=
  { lastHeight := none, gapRange := none, header := fun _ => none }

/-- A trusted checkpoint at height 500. -/
def cp500 : Checkpoint := ⟨9999, 500⟩

/-- A trusted checkpoint at height 25 (inside the gap-adjusted range of `chainGap`). -/
def cp25 : Checkpoint := ⟨8888, 25⟩

namespace session_header_sync

/-- An attempt on which connect, channel start and download all succeed. -/
def okAttempt : AttemptEnv := ⟨false, Code.success, Code.success, Code.success⟩

/-- An attempt on which the connection itself fails. -/
def connectFailAttempt : AttemptEnv := ⟨false, Code.err 1, Code.success, Code.success⟩

/-- An attempt on which the channel starts but the download protocol completes
with a failure code. -/
def downloadFailAttempt : AttemptEnv := ⟨false, Code.success, Code.success, Code.err 1⟩

/-- An attempt on which the connection succeeds but the handshake
(channel start) fails. -/
def startFailAttempt : AttemptEnv := ⟨false, Code.success, Code.err 1, Code.success⟩

/-- An environment failing the first two connection attempts, then succeeding. -/
def envFailTwice : Nat → AttemptEnv := fun i => if i < 2 then connectFailAttempt else okAttempt

/-- An environment on which every download attempt fails. -/
def envAllDownloadFail : Nat → AttemptEnv := fun _ => downloadFailAttempt

/-- An environment whose first attempt fails at channel start (handshake),
after which everything succeeds. -/
def envStartFail : Nat → AttemptEnv := fun i => if i = 0 then startFailAttempt else okAttempt

end session_header_sync

/-
  Theorems.  Helper lemmas first, then one theorem per claim, each with its
  witness where the statement carries hypotheses.
-/

namespace session_header_sync

theorem isError_false_iff (c : Code) : isError c = false ↔ c = Code.success := by
  cases c <;> simp [isError]

theorem backExceeds_iff (cps : List Checkpoint) (lastH : Nat) :
    backExceeds cps lastH = true ↔
      ∃ back, cps.getLast? = some back ∧ lastH < back.height := by
  unfold backExceeds
  cases h : cps.getLast? <;> simp

theorem decayRate_le (r : Nat) : decayRate r ≤ r := by
  unfold decayRate; omega

theorem decayRate_lt (r : Nat) (h : 0 < r) : decayRate r < r := by
  unfold decayRate; omega

theorem W_pos : 0 < W := by
  unfold W; positivity

/-- size_t computation of `first_gap - 1` for a positive in-range `first_gap`. -/
theorem wrap_pred (f : Nat) (h1 : 1 ≤ f) (h2 : f < W) : (f + (W - 1)) % W = f - 1 := by
  have hW := W_pos
  have he : f + (W - 1) = (f - 1) + W := by omega
  rw [he, Nat.add_mod_right, Nat.mod_eq_of_lt (by omega)]

theorem runLoop_stop_step (env : Nat → AttemptEnv) (conn fuel i rate : Nat)
    (h0 : (env i).stoppedNow = true) :
    runLoop env conn (fuel + 1) i rate = ([], rate) := by
  simp [runLoop, h0]

theorem runLoop_connectFail_step (env : Nat → AttemptEnv) (conn fuel i rate : Nat)
    (h0 : (env i).stoppedNow = false) (h1 : isError (env i).connectCode = true) :
    runLoop env conn (fuel + 1) i rate =
      (Event.connectAttempt conn :: (runLoop env conn fuel (i + 1) rate).1,
        (runLoop env conn fuel (i + 1) rate).2) := by
  simp [runLoop, h0, h1]

theorem runLoop_startFail_step (env : Nat → AttemptEnv) (conn fuel i rate : Nat)
    (h0 : (env i).stoppedNow = false) (h1 : isError (env i).connectCode = false)
    (h2 : isError (env i).startCode = true) :
    runLoop env conn (fuel + 1) i rate =
      (Event.connectAttempt conn :: (runLoop env conn fuel (i + 1) (decayRate rate)).1,
        (runLoop env conn fuel (i + 1) (decayRate rate)).2) := by
  simp [runLoop, h0, h1, h2]

theorem runLoop_downloadFail_step (env : Nat → AttemptEnv) (conn fuel i rate : Nat)
    (h0 : (env i).stoppedNow = false) (h1 : isError (env i).connectCode = false)
    (h2 : isError (env i).startCode = false) (h3 : isError (env i).syncCode = true) :
    runLoop env conn (fuel + 1) i rate =
      (Event.connectAttempt conn :: (runLoop env conn fuel (i + 1) (decayRate rate)).1,
        (runLoop env conn fuel (i + 1) (decayRate rate)).2) := by
  simp [runLoop, h0, h1, h2, h3]

theorem runLoop_success_step (env : Nat → AttemptEnv) (conn fuel i rate : Nat)
    (h0 : (env i).stoppedNow = false) (h1 : isError (env i).connectCode = false)
    (h2 : isError (env i).startCode = false) (h3 : (env i).syncCode = Code.success) :
    runLoop env conn (fuel + 1) i rate =
      ([Event.connectAttempt conn, Event.handlerCall Code.success], rate) := by
  have h3e : isError (env i).syncCode = false := by rw [h3]; rfl
  simp [runLoop, h0, h1, h2, h3e, h3]
  intro hcontra
  simp [isError] at hcontra

theorem runLoop_handler_success (env : Nat → AttemptEnv) (conn : Nat) :
    ∀ (fuel i rate : Nat) (c : Code),
      Event.handlerCall c ∈ (runLoop env conn fuel i rate).1 → c = Code.success := by
  intro fuel
  induction fuel with
  | zero =>
    intro i rate c h
    simp [runLoop] at h
  | succ n ih =>
    intro i rate c h
    by_cases h0 : (env i).stoppedNow
    · rw [runLoop_stop_step env conn n i rate h0] at h
      simp at h
    · rw [Bool.not_eq_true] at h0
      by_cases h1 : isError (env i).connectCode
      · rw [runLoop_connectFail_step env conn n i rate h0 h1] at h
        simp at h
        exact ih (i + 1) rate c h
      · rw [Bool.not_eq_true] at h1
        by_cases h2 : isError (env i).startCode
        · rw [runLoop_startFail_step env conn n i rate h0 h1 h2] at h
          simp at h
          exact ih (i + 1) (decayRate rate) c h
        · rw [Bool.not_eq_true] at h2
          by_cases h3 : isError (env i).syncCode
          · rw [runLoop_downloadFail_step env conn n i rate h0 h1 h2 h3] at h
            simp at h
            exact ih (i + 1) (decayRate rate) c h
          · rw [Bool.not_eq_true] at h3
            rw [runLoop_success_step env conn n i rate h0 h1 h2
              ((isError_false_iff _).mp h3)] at h
            simp at h
            exact h

theorem runLoop_rate_le (env : Nat → AttemptEnv) (conn : Nat) :
    ∀ (fuel i rate : Nat), (runLoop env conn fuel i rate).2 ≤ rate := by
  intro fuel
  induction fuel with
  | zero => intro i rate; simp [runLoop]
  | succ n ih =>
    intro i rate
    by_cases h0 : (env i).stoppedNow
    · rw [runLoop_stop_step env conn n i rate h0]
    · rw [Bool.not_eq_true] at h0
      by_cases h1 : isError (env i).connectCode
      · rw [runLoop_connectFail_step env conn n i rate h0 h1]
        exact ih (i + 1) rate
      · rw [Bool.not_eq_true] at h1
        by_cases h2 : isError (env i).startCode
        · rw [runLoop_startFail_step env conn n i rate h0 h1 h2]
          exact le_trans (ih (i + 1) (decayRate rate)) (decayRate_le rate)
        · rw [Bool.not_eq_true] at h2
          by_cases h3 : isError (env i).syncCode
          · rw [runLoop_downloadFail_step env conn n i rate h0 h1 h2 h3]
            exact le_trans (ih (i + 1) (decayRate rate)) (decayRate_le rate)
          · rw [Bool.not_eq_true] at h3
            rw [runLoop_success_step env conn n i rate h0 h1 h2
              ((isError_false_iff _).mp h3)]

theorem runLoop_connect_retries (env : Nat → AttemptEnv) (conn : Nat) :
    ∀ (N fuel i rate : Nat),
      (∀ j, j < N →
        (env (i + j)).stoppedNow = false ∧ isError (env (i + j)).connectCode = true) →
      (env (i + N)).stoppedNow = false →
      isError (env (i + N)).connectCode = false →
      isError (env (i + N)).startCode = false →
      (env (i + N)).syncCode = Code.success →
      N + 1 ≤ fuel →
      runLoop env conn fuel i rate =
        (List.replicate (N + 1) (Event.connectAttempt conn) ++
          [Event.handlerCall Code.success], rate) := by
  intro N
  induction N with
  | zero =>
    intro fuel i rate _ h0 h1 h2 h3 hf
    obtain ⟨f, rfl⟩ : ∃ f, fuel = f + 1 := ⟨fuel - 1, by omega⟩
    rw [Nat.add_zero] at h0 h1 h2 h3
    rw [runLoop_success_step env conn f i rate h0 h1 h2 h3]
    simp
  | succ n ih =>
    intro fuel i rate hfail h0 h1 h2 h3 hf
    obtain ⟨f, rfl⟩ : ∃ f, fuel = f + 1 := ⟨fuel - 1, by omega⟩
    obtain ⟨hs, hc⟩ := hfail 0 (Nat.succ_pos n)
    rw [Nat.add_zero] at hs hc
    rw [runLoop_connectFail_step env conn f i rate hs hc]
    have harith : ∀ j : Nat, i + 1 + j = i + (j + 1) := by omega
    rw [ih f (i + 1) rate
      (fun j hj => by rw [harith j]; exact hfail (j + 1) (by omega))
      (by rw [harith n]; exact h0) (by rw [harith n]; exact h1)
      (by rw [harith n]; exact h2) (by rw [harith n]; exact h3) (by omega)]
    simp [List.replicate_succ]

theorem runLoop_connector_fixed (env : Nat → AttemptEnv) (conn : Nat) :
    ∀ (fuel i rate m : Nat),
      Event.connectAttempt m ∈ (runLoop env conn fuel i rate).1 → m = conn := by
  intro fuel
  induction fuel with
  | zero =>
    intro i rate m h
    simp [runLoop] at h
  | succ n ih =>
    intro i rate m h
    by_cases h0 : (env i).stoppedNow
    · rw [runLoop_stop_step env conn n i rate h0] at h
      simp at h
    · rw [Bool.not_eq_true] at h0
      by_cases h1 : isError (env i).connectCode
      · rw [runLoop_connectFail_step env conn n i rate h0 h1] at h
        simp at h
        rcases h with h | h
        · exact h
        · exact ih (i + 1) rate m h
      · rw [Bool.not_eq_true] at h1
        by_cases h2 : isError (env i).startCode
        · rw [runLoop_startFail_step env conn n i rate h0 h1 h2] at h
          simp at h
          rcases h with h | h
          · exact h
          · exact ih (i + 1) (decayRate rate) m h
        · rw [Bool.not_eq_true] at h2
          by_cases h3 : isError (env i).syncCode
          · rw [runLoop_downloadFail_step env conn n i rate h0 h1 h2 h3] at h
            simp at h
            rcases h with h | h
            · exact h
            · exact ih (i + 1) (decayRate rate) m h
          · rw [Bool.not_eq_true] at h3
            rw [runLoop_success_step env conn n i rate h0 h1 h2
              ((isError_false_iff _).mp h3)] at h
            simp at h
            exact h

theorem resolveStop_cases (chain : FastChain) (cps : List Checkpoint)
    (firstHeader : Header) (firstHeight lastHeight : Nat) (t : Checkpoint)
    (h : resolveStop chain cps firstHeader firstHeight lastHeight = some t) :
    (backExceeds cps lastHeight = true ∧ cps.getLast? = some t) ∨
    (backExceeds cps lastHeight = false ∧ firstHeight = lastHeight ∧
      t = ⟨firstHeader.hash, firstHeight⟩) ∨
    (backExceeds cps lastHeight = false ∧ firstHeight ≠ lastHeight ∧
      ∃ lastHeader, chain.header lastHeight = some lastHeader ∧
        t = ⟨lastHeader.hash, lastHeight⟩) := by
  unfold resolveStop at h
  by_cases hb : backExceeds cps lastHeight = true
  · rw [if_pos hb] at h
    exact Or.inl ⟨hb, h⟩
  · rw [if_neg hb] at h
    rw [Bool.not_eq_true] at hb
    by_cases hfl : firstHeight = lastHeight
    · rw [if_pos hfl] at h
      exact Or.inr (Or.inl ⟨hb, hfl, (Option.some_inj.mp h).symm⟩)
    · rw [if_neg hfl] at h
      rcases hh : chain.header lastHeight with _ | lh
      · rw [hh] at h
        simp at h
      · rw [hh] at h
        simp at h
        exact Or.inr (Or.inr ⟨hb, hfl, lh, rfl, h.symm⟩)

theorem get_range_success_cases (chain : FastChain) (cps : List Checkpoint)
    (s0 t0 s t : Checkpoint) (h : get_range chain cps s0 t0 = (Code.success, s, t)) :
    ∃ tip firstHeader,
      chain.lastHeight = some tip ∧
      chain.header (syncBounds tip chain.gapRange).1 = some firstHeader ∧
      s = ⟨firstHeader.hash, (syncBounds tip chain.gapRange).1⟩ ∧
      resolveStop chain cps firstHeader (syncBounds tip chain.gapRange).1
        (syncBounds tip chain.gapRange).2 = some t := by
  unfold get_range at h
  split at h
  · simp at h
  · rename_i tip hlh
    split at h
    · simp at h
    · rename_i fh hh
      split at h
      · simp at h
      · rename_i stp hr
        simp at h
        exact ⟨tip, fh, hlh, hh, h.1.symm, by rw [hr, h.2]⟩

theorem get_range_success_intro (chain : FastChain) (cps : List Checkpoint)
    (s0 t0 : Checkpoint) (tip : Nat) (fh : Header) (t : Checkpoint)
    (hlh : chain.lastHeight = some tip)
    (hfh : chain.header (syncBounds tip chain.gapRange).1 = some fh)
    (hr : resolveStop chain cps fh (syncBounds tip chain.gapRange).1
      (syncBounds tip chain.gapRange).2 = some t) :
    get_range chain cps s0 t0 =
      (Code.success, ⟨fh.hash, (syncBounds tip chain.gapRange).1⟩, t) := by
  unfold get_range
  split
  · rename_i heq
    rw [heq] at hlh
    cases hlh
  · rename_i tip2 heq
    rw [heq] at hlh
    injection hlh with htip
    subst htip
    split
    · rename_i heq2
      rw [heq2] at hfh
      cases hfh
    · rename_i fh2 heq2
      rw [heq2] at hfh
      injection hfh with hfh2
      subst hfh2
      split
      · rename_i heq3
        rw [heq3] at hr
        cases hr
      · rename_i stp heq3
        rw [heq3] at hr
        injection hr with hr2
        subst hr2
        rfl

/-- The success path of `get_range` ignores the incoming values of the
out-parameters: assignment happens unconditionally before the success return. -/
theorem get_range_success_out_irrelevant (chain : FastChain) (cps : List Checkpoint)
    (s0 t0 s1 t1 : Checkpoint)
    (h : (get_range chain cps s0 t0).1 = Code.success) :
    get_range chain cps s1 t1 = get_range chain cps s0 t0 := by
  unfold get_range at h ⊢
  split at h
  · simp at h
  · split at h
    · simp at h
    · split at h
      · simp at h
      · rfl

theorem runLoop_download_failures (env : Nat → AttemptEnv) (conn : Nat) :
    ∀ (k i rate : Nat),
      (∀ j, j < k →
        (env (i + j)).stoppedNow = false ∧ isError (env (i + j)).connectCode = false ∧
        isError (env (i + j)).startCode = false ∧ isError (env (i + j)).syncCode = true) →
      runLoop env conn k i rate =
        (List.replicate k (Event.connectAttempt conn), decayRate^[k] rate) := by
  intro k
  induction k with
  | zero => intro i rate _; simp [runLoop]
  | succ n ih =>
    intro i rate hfail
    obtain ⟨hs, hc, hst, hsy⟩ := hfail 0 (Nat.succ_pos n)
    rw [Nat.add_zero] at hs hc hst hsy
    rw [runLoop_downloadFail_step env conn n i rate hs hc hst hsy]
    have harith : ∀ j : Nat, i + 1 + j = i + (j + 1) := by omega
    rw [ih (i + 1) (decayRate rate)
      (fun j hj => by rw [harith j]; exact hfail (j + 1) (by omega))]
    simp [List.replicate_succ, Function.iterate_succ_apply]

end session_header_sync

namespace executor

theorem signalAll_set (cs : List Code) (v : Code) : signalAll cs (some v) = some v := by
  induction cs with
  | nil => rfl
  | cons c cs ih => simpa [signalAll, stop] using ih

/-- Claim C7: the stop signal records exactly the first caller's code; every
subsequent call, even with a different code, is a silent no-op, and any
sequence of calls leaves the single recorded value that every waiter on the
promise then observes. -/
theorem stop_first_wins :
    (∀ ec : Code, stop ec none = some ec) ∧
    (∀ ec v : Code, stop ec (some v) = some v) ∧
    (∀ (c : Code) (cs : List Code), signalAll (c :: cs) none = some c) := by
  refine ⟨fun ec => rfl, fun ec v => rfl, fun c cs => ?_⟩
  have h1 : signalAll (c :: cs) none = signalAll cs (stop c none) := by
    simp [signalAll]
  rw [h1]
  exact signalAll_set cs c

end executor

namespace session_header_sync

/-- Claim C5: starting the session with a non-empty header queue invokes the
completion handler immediately and exactly once with `operation_failed`,
does not initialize the queue, and performs no connection attempt. -/
theorem initialize_nonempty_fails (chain : FastChain) (cps : List Checkpoint)
    (env : Nat → AttemptEnv) (conn fuel : Nat) :
    runSession Code.success false chain cps env conn fuel =
      ([Event.handlerCall Code.operation_failed], headers_per_second) := rfl

/-- Claim C6: when the resolved range has seed equal to stop, the session
invokes the handler once with success, never initializes the header queue,
and attempts no connection. -/
theorem initialize_already_synced (chain : FastChain) (cps : List Checkpoint)
    (env : Nat → AttemptEnv) (conn fuel : Nat) (s : Checkpoint)
    (h : get_range chain cps defaultCheckpoint defaultCheckpoint = (Code.success, s, s)) :
    runSession Code.success true chain cps env conn fuel =
      ([Event.handlerCall Code.success], headers_per_second) := by
  unfold runSession
  rw [h]
  simp [isError]

theorem initialize_already_synced_witness :
    get_range chainGenesis [] defaultCheckpoint defaultCheckpoint =
      (Code.success, ⟨1000, 0⟩, ⟨1000, 0⟩) ∧
    runSession Code.success true chainGenesis [] envFailTwice 7 5 =
      ([Event.handlerCall Code.success], headers_per_second) :=
  ⟨rfl, initialize_already_synced chainGenesis [] envFailTwice 7 5 ⟨1000, 0⟩ rfl⟩

/-- Claim C10: whenever `get_range` returns a nonzero code (`operation_failed`
from a failed last-height lookup or `not_found` from an absent boundary
header), the out-parameters `out_seed` and `out_stop` keep their incoming
values; they are assigned only on the success path. -/
theorem get_range_out_params (chain : FastChain) (cps : List Checkpoint)
    (s0 t0 : Checkpoint) (h : (get_range chain cps s0 t0).1 ≠ Code.success) :
    (get_range chain cps s0 t0).2.1 = s0 ∧ (get_range chain cps s0 t0).2.2 = t0 := by
  unfold get_range at h ⊢
  split at h
  · simp
  · split at h
    · simp
    · split at h
      · simp
      · simp at h

theorem get_range_out_params_witness :
    (get_range chainUnreadable [] ⟨5, 5⟩ ⟨6, 6⟩).1 ≠ Code.success ∧
    (get_range chainUnreadable [] ⟨5, 5⟩ ⟨6, 6⟩).2.1 = ⟨5, 5⟩ ∧
    (get_range chainUnreadable [] ⟨5, 5⟩ ⟨6, 6⟩).2.2 = ⟨6, 6⟩ :=
  ⟨by decide, get_range_out_params chainUnreadable [] ⟨5, 5⟩ ⟨6, 6⟩ (by decide)⟩

/-- Claim C1: a failed download-protocol completion decays the minimum rate and
reconnects (same connector, no handler call); every handler call emitted by the
retry loop carries success, so no failure terminates the session; a failed
connection retries with the same connector at an unchanged rate; and a connector
that fails N times and then succeeds through a completed sync produces exactly
N+1 connection attempts followed by exactly one success callback. -/
theorem session_infinite_retry :
    (∀ (env : Nat → AttemptEnv) (conn fuel i rate : Nat),
      (env i).stoppedNow = false → isError (env i).connectCode = false →
      isError (env i).startCode = false → isError (env i).syncCode = true →
      runLoop env conn (fuel + 1) i rate =
        (Event.connectAttempt conn :: (runLoop env conn fuel (i + 1) (decayRate rate)).1,
          (runLoop env conn fuel (i + 1) (decayRate rate)).2)) ∧
    (∀ (env : Nat → AttemptEnv) (conn fuel i rate : Nat) (c : Code),
      Event.handlerCall c ∈ (runLoop env conn fuel i rate).1 → c = Code.success) ∧
    (∀ (env : Nat → AttemptEnv) (conn fuel i rate : Nat),
      (env i).stoppedNow = false → isError (env i).connectCode = true →
      runLoop env conn (fuel + 1) i rate =
        (Event.connectAttempt conn :: (runLoop env conn fuel (i + 1) rate).1,
          (runLoop env conn fuel (i + 1) rate).2)) ∧
    (∀ (env : Nat → AttemptEnv) (conn N fuel i rate : Nat),
      (∀ j, j < N → (env (i + j)).stoppedNow = false ∧
        isError (env (i + j)).connectCode = true) →
      (env (i + N)).stoppedNow = false → isError (env (i + N)).connectCode = false →
      isError (env (i + N)).startCode = false → (env (i + N)).syncCode = Code.success →
      N + 1 ≤ fuel →
      runLoop env conn fuel i rate =
        (List.replicate (N + 1) (Event.connectAttempt conn) ++
          [Event.handlerCall Code.success], rate)) :=
  ⟨fun env conn fuel i rate => runLoop_downloadFail_step env conn fuel i rate,
    fun env conn fuel i rate => runLoop_handler_success env conn fuel i rate,
    fun env conn fuel i rate => runLoop_connectFail_step env conn fuel i rate,
    fun env conn N fuel i rate => runLoop_connect_retries env conn N fuel i rate⟩

theorem session_infinite_retry_witness :
    (∀ j, j < 2 → (envFailTwice (0 + j)).stoppedNow = false ∧
      isError (envFailTwice (0 + j)).connectCode = true) ∧
    (envFailTwice (0 + 2)).stoppedNow = false ∧
    runLoop envFailTwice 7 3 0 10000 =
      (List.replicate 3 (Event.connectAttempt 7) ++ [Event.handlerCall Code.success],
        10000) ∧
    runLoop envAllDownloadFail 7 1 0 10000 =
      (Event.connectAttempt 7 :: (runLoop envAllDownloadFail 7 0 1 (decayRate 10000)).1,
        (runLoop envAllDownloadFail 7 0 1 (decayRate 10000)).2) := by
  refine ⟨fun j hj => ?_, rfl, ?_, ?_⟩
  · interval_cases j <;> exact ⟨rfl, rfl⟩
  · exact (session_infinite_retry).2.2.2 envFailTwice 7 2 3 0 10000
      (fun j hj => by interval_cases j <;> exact ⟨rfl, rfl⟩) rfl rfl rfl rfl (by omega)
  · exact (session_infinite_retry).1 envAllDownloadFail 7 0 0 10000 rfl rfl rfl rfl

/-- Claim C2 counterexample: after three consecutive failed download attempts
the minimum rate is 4218, while 10000 * 0.75^3 = 4218.75; the uint32 cast in the
decay step truncates, so the claimed closed form initial * factor^k fails at
k = 3 (and the claim's own examples stop at k = 2). -/
theorem minimum_rate_power_counterexample :
    runLoop envAllDownloadFail 7 3 0 headers_per_second =
      (List.replicate 3 (Event.connectAttempt 7), 4218) ∧
    (10000 : ℚ) * back_off_factor ^ 3 ≠ (4218 : ℚ) := by
  refine ⟨rfl, ?_⟩
  rw [back_off_factor]
  norm_num

/-- Claim C2 (amended): across k consecutive failed download attempts within one
session the rate floor equals the k-fold iterate of r ↦ 3*r/4 (the uint32
truncation of r * 0.75f) applied to the initial rate; starting from 10000 this
gives exactly 7500 after attempt 1 and 5625 after attempt 2, the factor is fixed
below 1.0, each failure strictly decreases a positive rate, and the rate is
never increased during the session. -/
theorem minimum_rate_monotone_decay :
    (∀ (env : Nat → AttemptEnv) (conn k i rate : Nat),
      (∀ j, j < k → (env (i + j)).stoppedNow = false ∧
        isError (env (i + j)).connectCode = false ∧
        isError (env (i + j)).startCode = false ∧
        isError (env (i + j)).syncCode = true) →
      runLoop env conn k i rate =
        (List.replicate k (Event.connectAttempt conn), decayRate^[k] rate)) ∧
    decayRate^[1] headers_per_second = 7500 ∧
    decayRate^[2] headers_per_second = 5625 ∧
    (∀ r : Nat, decayRate r ≤ r) ∧
    (∀ r : Nat, 0 < r → decayRate r < r) ∧
    back_off_factor < 1 ∧
    (∀ (env : Nat → AttemptEnv) (conn fuel i rate : Nat),
      (runLoop env conn fuel i rate).2 ≤ rate) := by
  refine ⟨fun env conn k i rate => runLoop_download_failures env conn k i rate,
    rfl, rfl, decayRate_le, decayRate_lt, ?_,
    fun env conn => runLoop_rate_le env conn⟩
  rw [back_off_factor]
  norm_num

theorem minimum_rate_monotone_decay_witness :
    (∀ j, j < 2 → (envAllDownloadFail (0 + j)).stoppedNow = false ∧
      isError (envAllDownloadFail (0 + j)).connectCode = false ∧
      isError (envAllDownloadFail (0 + j)).startCode = false ∧
      isError (envAllDownloadFail (0 + j)).syncCode = true) ∧
    runLoop envAllDownloadFail 7 2 0 10000 =
      (List.replicate 2 (Event.connectAttempt 7), decayRate^[2] 10000) ∧
    0 < (10000 : Nat) ∧ decayRate 10000 < 10000 :=
  ⟨fun j hj => ⟨rfl, rfl, rfl, rfl⟩,
    (minimum_rate_monotone_decay).1 envAllDownloadFail 7 2 0 10000
      (fun j hj => ⟨rfl, rfl, rfl, rfl⟩),
    by norm_num,
    (minimum_rate_monotone_decay).2.2.2.2.1 10000 (by norm_num)⟩

/-- Claim C9: a channel whose handshake (channel start) completes with a failure
code feeds the session's common retry path: the session reconnects with the same
connector — every connection attempt in a loop trace uses the connector the loop
was started with — no handler call is made for the failure, and no distinct
terminal error ever reaches the caller (every handler call carried by the loop
is success). -/
theorem handshake_failure_retries :
    (∀ (env : Nat → AttemptEnv) (conn fuel i rate : Nat),
      (env i).stoppedNow = false → isError (env i).connectCode = false →
      isError (env i).startCode = true →
      runLoop env conn (fuel + 1) i rate =
        (Event.connectAttempt conn :: (runLoop env conn fuel (i + 1) (decayRate rate)).1,
          (runLoop env conn fuel (i + 1) (decayRate rate)).2)) ∧
    (∀ (env : Nat → AttemptEnv) (conn fuel i rate m : Nat),
      Event.connectAttempt m ∈ (runLoop env conn fuel i rate).1 → m = conn) ∧
    (∀ (env : Nat → AttemptEnv) (conn fuel i rate : Nat) (c : Code),
      Event.handlerCall c ∈ (runLoop env conn fuel i rate).1 → c = Code.success) :=
  ⟨fun env conn fuel i rate => runLoop_startFail_step env conn fuel i rate,
    fun env conn fuel i rate => runLoop_connector_fixed env conn fuel i rate,
    fun env conn fuel i rate => runLoop_handler_success env conn fuel i rate⟩

theorem handshake_failure_retries_witness :
    isError (envStartFail 0).startCode = true ∧
    runLoop envStartFail 7 2 0 10000 =
      (Event.connectAttempt 7 :: (runLoop envStartFail 7 1 1 (decayRate 10000)).1,
        (runLoop envStartFail 7 1 1 (decayRate 10000)).2) :=
  ⟨rfl, (handshake_failure_retries).1 envStartFail 7 1 0 10000 rfl rfl rfl⟩

/-- Claim C8: every successful range resolution satisfies
seed.height ≤ stop.height, with equality exactly when seed = stop (the
already-synced case). The chain reader's gap contract is assumed: a reported
gap is a nonempty region of missing headers at positive heights whose
adjusted upper bound still fits in size_t (1 ≤ first_gap ≤ last_gap and
last_gap + 1 < 2^64). -/
theorem get_range_seed_le_stop (chain : FastChain) (cps : List Checkpoint)
    (s0 t0 s t : Checkpoint)
    (hgap : ∀ f l, chain.gapRange = some (f, l) → 1 ≤ f ∧ f ≤ l ∧ l + 1 < W)
    (h : get_range chain cps s0 t0 = (Code.success, s, t)) :
    s.height ≤ t.height ∧ (s.height = t.height ↔ s = t) := by
  obtain ⟨tip, fh, hlh, hh, hs, hr⟩ := get_range_success_cases chain cps s0 t0 s t h
  have hble : (syncBounds tip chain.gapRange).1 ≤ (syncBounds tip chain.gapRange).2 := by
    rcases hg : chain.gapRange with _ | ⟨f, l⟩
    · exact Nat.le_refl tip
    · obtain ⟨hf1, hfl, hlW⟩ := hgap f l hg
      show (f + (W - 1)) % W ≤ (l + 1) % W
      rw [wrap_pred f hf1 (by omega), Nat.mod_eq_of_lt hlW]
      omega
  rcases resolveStop_cases chain cps fh (syncBounds tip chain.gapRange).1
      (syncBounds tip chain.gapRange).2 t hr with
    ⟨hbe, hlast⟩ | ⟨hbe, heqb, ht⟩ | ⟨hbe, hne, lh, hlast, ht⟩
  · obtain ⟨back, hback, hgt⟩ := (backExceeds_iff cps _).mp hbe
    rw [hback] at hlast
    rw [Option.some_inj.mp hlast] at hgt
    subst hs
    have hlt : (syncBounds tip chain.gapRange).1 < t.height := lt_of_le_of_lt hble hgt
    exact ⟨le_of_lt hlt,
      fun h' => absurd h' (Nat.ne_of_lt hlt),
      fun h' => absurd (congrArg Checkpoint.height h') (Nat.ne_of_lt hlt)⟩
  · subst hs
    subst ht
    exact ⟨Nat.le_refl _, by simp⟩
  · subst hs
    subst ht
    have hlt : (syncBounds tip chain.gapRange).1 < (syncBounds tip chain.gapRange).2 :=
      lt_of_le_of_ne hble hne
    exact ⟨le_of_lt hlt,
      fun h' => absurd h' (Nat.ne_of_lt hlt),
      fun h' => absurd (congrArg Checkpoint.height h') (Nat.ne_of_lt hlt)⟩

theorem get_range_seed_le_stop_witness :
    get_range chainGap [] defaultCheckpoint defaultCheckpoint =
      (Code.success, ⟨1009, 9⟩, ⟨1021, 21⟩) ∧
    (⟨1009, 9⟩ : Checkpoint).height ≤ (⟨1021, 21⟩ : Checkpoint).height ∧
    ((⟨1009, 9⟩ : Checkpoint).height = (⟨1021, 21⟩ : Checkpoint).height ↔
      (⟨1009, 9⟩ : Checkpoint) = ⟨1021, 21⟩) := by
  refine ⟨rfl, ?_⟩
  exact get_range_seed_le_stop chainGap [] defaultCheckpoint defaultCheckpoint
    ⟨1009, 9⟩ ⟨1021, 21⟩
    (fun f l hfl => by
      simp [chainGap] at hfl
      obtain ⟨rfl, rfl⟩ := hfl
      refine ⟨by norm_num, by norm_num, by norm_num [W]⟩)
    rfl

/-- Claim C3: the comparison selecting the highest checkpoint as the stop is
evaluated against the gap-adjusted last height last_gap + 1, not the raw chain
tip: whenever the highest checkpoint's height exceeds that adjusted bound the
stop is that checkpoint, and whenever it does not exceed it (under the gap
contract) the stop's height stays at most the adjusted bound; with no gap, tip
100 and highest checkpoint at 500 the stop is the checkpoint; and with tip 30,
gap [10, 20] and a checkpoint at height 25 the checkpoint is selected even
though 25 does not exceed the raw tip 30. -/
theorem get_range_checkpoint_override :
    (∀ (chain : FastChain) (cps : List Checkpoint) (back : Checkpoint)
        (f l tip : Nat) (s0 t0 : Checkpoint),
      chain.lastHeight = some tip →
      chain.gapRange = some (f, l) →
      cps.getLast? = some back →
      (l + 1) % W < back.height →
      (chain.header ((f + (W - 1)) % W)).isSome = true →
      (get_range chain cps s0 t0).1 = Code.success ∧
        (get_range chain cps s0 t0).2.2 = back) ∧
    (∀ (chain : FastChain) (cps : List Checkpoint) (back : Checkpoint)
        (f l : Nat) (s0 t0 s t : Checkpoint),
      chain.gapRange = some (f, l) →
      cps.getLast? = some back →
      1 ≤ f → f ≤ l → l + 1 < W →
      back.height ≤ l + 1 →
      get_range chain cps s0 t0 = (Code.success, s, t) →
      t.height ≤ l + 1) ∧
    get_range chainTip100 [cp500] defaultCheckpoint defaultCheckpoint =
      (Code.success, ⟨1100, 100⟩, cp500) ∧
    get_range chainGap [cp25] defaultCheckpoint defaultCheckpoint =
      (Code.success, ⟨1009, 9⟩, cp25) ∧
    cp25.height ≤ 30 := by
  refine ⟨?_, ?_, rfl, rfl, by norm_num [cp25]⟩
  · intro chain cps back f l tip s0 t0 hlh hg hback hgt hhdr
    obtain ⟨fh, hfh⟩ := Option.isSome_iff_exists.mp hhdr
    have hbounds : syncBounds tip chain.gapRange = ((f + (W - 1)) % W, (l + 1) % W) := by
      rw [hg]
      rfl
    have hfh2 : chain.header (syncBounds tip chain.gapRange).1 = some fh := by
      rw [hbounds]
      exact hfh
    have hbe : backExceeds cps (syncBounds tip chain.gapRange).2 = true := by
      rw [hbounds]
      exact (backExceeds_iff cps _).mpr ⟨back, hback, hgt⟩
    have hr : resolveStop chain cps fh (syncBounds tip chain.gapRange).1
        (syncBounds tip chain.gapRange).2 = some back := by
      unfold resolveStop
      rw [if_pos hbe, hback]
    rw [get_range_success_intro chain cps s0 t0 tip fh back hlh hfh2 hr]
    exact ⟨rfl, rfl⟩
  · intro chain cps back f l s0 t0 s t hg hback hf1 hfl hlW hle hres
    obtain ⟨tip2, fh, hlh2, hh, hs, hr⟩ := get_range_success_cases chain cps s0 t0 s t hres
    have hbounds : syncBounds tip2 chain.gapRange = (f - 1, l + 1) := by
      rw [hg]
      show ((f + (W - 1)) % W, (l + 1) % W) = (f - 1, l + 1)
      rw [wrap_pred f hf1 (by omega), Nat.mod_eq_of_lt hlW]
    rw [hbounds] at hr
    rcases resolveStop_cases chain cps fh (f - 1) (l + 1) t hr with
      ⟨hbe, hlast⟩ | ⟨_, heqb, ht⟩ | ⟨_, _, lh, _, ht⟩
    · obtain ⟨back2, hback2, hgt⟩ := (backExceeds_iff cps (l + 1)).mp hbe
      rw [hback] at hback2
      obtain rfl : back = back2 := Option.some_inj.mp hback2
      omega
    · omega
    · subst ht
      simp

theorem get_range_checkpoint_override_witness :
    chainGap.lastHeight = some 30 ∧
    chainGap.gapRange = some (10, 20) ∧
    List.getLast? [cp25] = some cp25 ∧
    (20 + 1) % W < cp25.height ∧
    (chainGap.header ((10 + (W - 1)) % W)).isSome = true ∧
    (get_range chainGap [cp25] defaultCheckpoint defaultCheckpoint).1 = Code.success ∧
    (get_range chainGap [cp25] defaultCheckpoint defaultCheckpoint).2.2 = cp25 := by
  refine ⟨rfl, rfl, rfl, by decide, by decide, ?_⟩
  exact (get_range_checkpoint_override).1 chainGap [cp25] cp25 10 20 30
    defaultCheckpoint defaultCheckpoint rfl rfl rfl (by decide) (by decide)

/-- Claim C4: a reported gap (first_gap, last_gap) makes get_range work with
last_height = last_gap + 1 and first_height = first_gap - 1, the seed taken from
the header at first_height; a non-overriding checkpoint set leaves the stop at
height last_gap + 1; concretely, gap [10, 20] below tip 30 with no checkpoints
resolves seed height 9 and stop height 21 rather than targeting the tip at 30. -/
theorem get_range_gap_bounds :
    (∀ (chain : FastChain) (cps : List Checkpoint) (f l : Nat) (s0 t0 s t : Checkpoint),
      chain.gapRange = some (f, l) →
      1 ≤ f → f ≤ l → l + 1 < W →
      get_range chain cps s0 t0 = (Code.success, s, t) →
      (∃ hdr, chain.header (f - 1) = some hdr ∧ s = ⟨hdr.hash, f - 1⟩) ∧
        (backExceeds cps (l + 1) = false → t.height = l + 1)) ∧
    get_range chainGap [] defaultCheckpoint defaultCheckpoint =
      (Code.success, ⟨1009, 9⟩, ⟨1021, 21⟩) := by
  refine ⟨?_, rfl⟩
  intro chain cps f l s0 t0 s t hg hf1 hfl hlW hres
  obtain ⟨tip2, fh, hlh2, hh, hs, hr⟩ := get_range_success_cases chain cps s0 t0 s t hres
  have hbounds : syncBounds tip2 chain.gapRange = (f - 1, l + 1) := by
    rw [hg]
    show ((f + (W - 1)) % W, (l + 1) % W) = (f - 1, l + 1)
    rw [wrap_pred f hf1 (by omega), Nat.mod_eq_of_lt hlW]
  rw [hbounds] at hh hs hr
  refine ⟨⟨fh, hh, hs⟩, fun hnbe => ?_⟩
  rcases resolveStop_cases chain cps fh (f - 1) (l + 1) t hr with
    ⟨hbe, _⟩ | ⟨_, heqb, _⟩ | ⟨_, _, lh, _, ht⟩
  · rw [hnbe] at hbe
    cases hbe
  · omega
  · subst ht
    simp

theorem get_range_gap_bounds_witness :
    chainGap.gapRange = some (10, 20) ∧ 1 ≤ 10 ∧ 10 ≤ 20 ∧ 20 + 1 < W ∧
    get_range chainGap [] defaultCheckpoint defaultCheckpoint =
      (Code.success, ⟨1009, 9⟩, ⟨1021, 21⟩) ∧
    (∃ hdr, chainGap.header (10 - 1) = some hdr ∧
      (⟨1009, 9⟩ : Checkpoint) = ⟨hdr.hash, 10 - 1⟩) ∧
    (backExceeds [] (20 + 1) = false → (⟨1021, 21⟩ : Checkpoint).height = 20 + 1) := by
  refine ⟨rfl, by norm_num, by norm_num, by norm_num [W], rfl, ?_⟩
  exact (get_range_gap_bounds).1 chainGap [] 10 20 defaultCheckpoint defaultCheckpoint
    ⟨1009, 9⟩ ⟨1021, 21⟩ rfl (by norm_num) (by norm_num) (by norm_num [W]) rfl

end session_header_sync

end LibbitcoinNode
